import Mathlib

/-
  Verification of the point-cloud registration core (PCL):
  a shallow embedding of `src/common/include/pcl/point_representation.h`
  together with spec-modelled fragments of the registration pipeline
  (alignment loop, PPF candidate assembly, pyramid feature histograms)
  whose implementations live outside the provided sources.
-/

namespace PCL

/-- Model of a C `float` value: either a finite rational value, a NaN, or a
signed infinity.  `pcl_isfinite` distinguishes the finite case. -/
inductive F where
  | fin (q : ℚ)
  | nan
  | inf
  | ninf
deriving DecidableEq, Repr

/-- Embedding of `pcl_isfinite`. -/
def F.isFinite : F → Bool
  | F.fin _ => true
  | _ => false

/-- IEEE-style multiplication on the float model (used by `vectorize` for the
`temp[i] * alpha_[i]` products). -/
def F.mul : F → F → F
  | F.nan, _ => F.nan
  | _, F.nan => F.nan
  | F.fin a, F.fin b => F.fin (a * b)
  | F.fin a, F.inf => if 0 < a then F.inf else if a < 0 then F.ninf else F.nan
  | F.fin a, F.ninf => if 0 < a then F.ninf else if a < 0 then F.inf else F.nan
  | F.inf, F.fin b => if 0 < b then F.inf else if b < 0 then F.ninf else F.nan
  | F.ninf, F.fin b => if 0 < b then F.ninf else if b < 0 then F.inf else F.nan
  | F.inf, F.inf => F.inf
  | F.inf, F.ninf => F.ninf
  | F.ninf, F.inf => F.ninf
  | F.ninf, F.ninf => F.inf

theorem F.mul_one_right (x : F) : F.mul x (F.fin 1) = x := by
  cases x <;> simp [F.mul]

/-- Embedding of `pcl::PointRepresentation<PointT>`: the dimension count
`nr_dimensions_`, the rescale vector `alpha_`, and the virtual
`copyToFloatArray` (modelled as the function giving the float written at each
output index). -/
structure PointRepresentation (PointT : Type) where
  nr_dimensions_ : ℕ
  alpha_ : List F
  copyToFloatArray : PointT → ℕ → F

namespace PointRepresentation

variable {PointT : Type}

/-- The float array produced by `copyToFloatArray` (the spec calls this
`project`): entries `0 … nr_dimensions_ - 1` of the output buffer. -/
def project (r : PointRepresentation PointT) (p : PointT) : List F :=
  (List.range r.nr_dimensions_).map (r.copyToFloatArray p)

/-- Embedding of `PointRepresentation::isValid`: copy the point to a float
array and require every one of the `nr_dimensions_` entries to be finite. -/
def isValid (r : PointRepresentation PointT) (p : PointT) : Bool :=
  (List.range r.nr_dimensions_).all (fun i => (r.copyToFloatArray p i).isFinite)

/-- Embedding of `PointRepresentation::vectorize`: copy the point to a float
array; if `alpha_` is empty output it unchanged, otherwise multiply
element-wise by `alpha_`. -/
def vectorize (r : PointRepresentation PointT) (p : PointT) : List F :=
  if r.alpha_.isEmpty then
    (List.range r.nr_dimensions_).map (r.copyToFloatArray p)
  else
    (List.range r.nr_dimensions_).map
      (fun i => F.mul (r.copyToFloatArray p i) (r.alpha_.getD i F.nan))

/-- Embedding of `PointRepresentation::setRescaleValues`: resize `alpha_` to
`nr_dimensions_` and copy the first `nr_dimensions_` entries of the given
array, with no validation of the values. -/
def setRescaleValues (r : PointRepresentation PointT) (a : ℕ → F) :
    PointRepresentation PointT :=
  { r with alpha_ := (List.range r.nr_dimensions_).map a }

/-- Embedding of `PointRepresentation::getNumberOfDimensions`. -/
def getNumberOfDimensions (r : PointRepresentation PointT) : ℕ :=
  r.nr_dimensions_

end PointRepresentation

/-- Embedding of `pcl::PointXYZ` (the fields the representation reads). -/
structure PointXYZ where
  x : F
  y : F
  z : F
deriving DecidableEq, Repr

/-- Embedding of `pcl::PointXYZI`. -/
structure PointXYZI where
  x : F
  y : F
  z : F
  intensity : F
deriving DecidableEq, Repr

/-- Embedding of the specialization `DefaultPointRepresentation<PointXYZ>`:
3 dimensions, `copyToFloatArray` writes `x`, `y`, `z`. -/
def defaultRepresentationXYZ : PointRepresentation PointXYZ :=
  { nr_dimensions_ := 3
    alpha_ := []
    copyToFloatArray := fun p i =>
      match i with
      | 0 => p.x
      | 1 => p.y
      | 2 => p.z
      | _ => F.nan }

/-- Embedding of the specialization `DefaultPointRepresentation<PointXYZI>`:
3 dimensions, `copyToFloatArray` writes `x`, `y`, `z`; the `intensity` field
is not part of the vectorization. -/
def defaultRepresentationXYZI : PointRepresentation PointXYZI :=
  { nr_dimensions_ := 3
    alpha_ := []
    copyToFloatArray := fun p i =>
      match i with
      | 0 => p.x
      | 1 => p.y
      | 2 => p.z
      | _ => F.nan }

/-- Dimension count computed by the generic `DefaultPointRepresentation`
constructor: `nr_dimensions_ = sizeof (PointDefault) / sizeof (float)`,
then capped: `if (nr_dimensions_ > 3) nr_dimensions_ = 3`. -/
def defaultNrDimensions (total_floats : ℕ) : ℕ :=
  let nr := total_floats
  if nr > 3 then 3 else nr

/-- Embedding of the generic `DefaultPointRepresentation<PointDefault>` for an
unknown point type, treated as a struct/array of `total_floats` floats; the
point is modelled by its raw float layout. -/
def defaultRepresentationGeneric (total_floats : ℕ) :
    PointRepresentation (ℕ → F) :=
  { nr_dimensions_ := defaultNrDimensions total_floats
    alpha_ := []
    copyToFloatArray := fun p i => p i }

/-- Dimension count computed by the `CustomPointRepresentation` constructor
(`max_dim_` and `start_dim_` are C `int`s, hence `ℤ`):
`nr_dimensions_ = sizeof (PointDefault) / sizeof (float) - start_dim_`, then
`if (nr_dimensions_ > max_dim_) nr_dimensions_ = max_dim_`. -/
def customNrDimensions (total_floats : ℕ) (max_dim start_dim : ℤ) : ℤ :=
  let nr := (total_floats : ℤ) - start_dim
  if nr > max_dim then max_dim else nr

/-- Embedding of `pcl::CustomPointRepresentation<PointDefault>`: the point is
modelled by its raw float layout as a list of `total_floats` floats;
`copyToFloatArray` reads `((float *)&p)[start_dim_ + i]` for
`i < nr_dimensions_`. -/
def customRepresentation (total_floats : ℕ) (max_dim start_dim : ℤ) :
    PointRepresentation (List F) :=
  { nr_dimensions_ := (customNrDimensions total_floats max_dim start_dim).toNat
    alpha_ := []
    copyToFloatArray := fun p i => p.getD (start_dim.toNat + i) F.nan }

/-- Embedding of `DefaultFeatureRepresentation`'s `IncrementFunctor`, run by
`for_each_type` over the feature type's declared field list: starting from 0,
it adds each field's element count (`pcl::traits::datatype<_, Key>::size`). -/
def incrementFunctorFold (field_sizes : List ℕ) : ℕ :=
  field_sizes.foldl (fun n s => n + s) 0

/-- Dimension count of `DefaultFeatureRepresentation<PointDefault>`:
the constructor zeroes `nr_dimensions_` and runs `IncrementFunctor` over the
field list. -/
def defaultFeatureNrDimensions (field_sizes : List ℕ) : ℕ :=
  incrementFunctorFold field_sizes

/-- Modelled from the spec: the declared field list of `FPFHSignature33`.  The
field registration lives in `pcl/point_types.h`, which is not among the
provided sources; per the spec an FPFH signature is a single length-33 float
histogram field. -/
def fpfhFieldSizes : List ℕ := [33]

/-- Modelled from the spec: the declared field list of `VFHSignature308`; per
the spec it is a single length-308 float histogram field
(`pcl/point_types.h` is not among the provided sources). -/
def vfhFieldSizes : List ℕ := [308]

/-- Example point used to instantiate theorems at concrete inputs. -/
def ptEx : PointXYZ := ⟨F.fin 1, F.fin 2, F.fin 3⟩

/-- Example rescale array used to instantiate theorems at concrete inputs. -/
def aEx : ℕ → F := fun i => F.fin ((i : ℚ) + 2)

theorem getD_range_map {α : Type} (f : ℕ → α) (n i : ℕ) (d : α) (h : i < n) :
    ((List.range n).map f).getD i d = f i := by
  rw [List.getD_eq_getElem?_getD]
  simp [List.getElem?_map, List.getElem?_range, h]

theorem range_map_isEmpty_false {α : Type} (f : ℕ → α) (n : ℕ) (h : 0 < n) :
    ((List.range n).map f).isEmpty = false := by
  rw [List.isEmpty_eq_false]
  simp only [ne_eq, List.map_eq_nil_iff, List.range_eq_nil]
  omega

theorem project_getD {PointT : Type} (r : PointRepresentation PointT)
    (p : PointT) (i : ℕ) (h : i < r.nr_dimensions_) :
    (r.project p).getD i F.nan = r.copyToFloatArray p i :=
  getD_range_map _ _ _ _ h

theorem setRescale_alpha {PointT : Type} (r : PointRepresentation PointT)
    (a : ℕ → F) :
    (r.setRescaleValues a).alpha_ = (List.range r.nr_dimensions_).map a := rfl

theorem vectorize_setRescale_getD {PointT : Type}
    (r : PointRepresentation PointT) (a : ℕ → F) (p : PointT) (i : ℕ)
    (h : i < r.nr_dimensions_) :
    ((r.setRescaleValues a).vectorize p).getD i F.nan
      = F.mul (r.copyToFloatArray p i) (a i) := by
  unfold PointRepresentation.vectorize
  rw [setRescale_alpha, range_map_isEmpty_false a r.nr_dimensions_ (by omega)]
  simp only [Bool.false_eq_true, if_false]
  rw [show (r.setRescaleValues a).nr_dimensions_ = r.nr_dimensions_ from rfl,
    show (r.setRescaleValues a).copyToFloatArray = r.copyToFloatArray from rfl]
  rw [getD_range_map _ _ _ _ h, getD_range_map _ _ _ _ h]

theorem vectorize_of_alpha_nil {PointT : Type} (r : PointRepresentation PointT)
    (p : PointT) (h : r.alpha_ = []) : r.vectorize p = r.project p := by
  unfold PointRepresentation.vectorize PointRepresentation.project
  rw [h]
  rfl

/-- C2: for a point `p` and a rescale array `a` of length `dims()` installed
by `setRescaleValues`, entry `i < dims()` of `vectorize p` equals entry `i` of
`project p` multiplied by `a i`; with no rescale set (`alpha_` empty),
`vectorize` coincides with `project`. -/
theorem vectorize_applies_rescale {PointT : Type}
    (r : PointRepresentation PointT) (a : ℕ → F) (p : PointT) :
    (∀ i, i < r.nr_dimensions_ →
      ((r.setRescaleValues a).vectorize p).getD i F.nan
        = F.mul ((r.project p).getD i F.nan) (a i))
    ∧ (r.alpha_ = [] → r.vectorize p = r.project p) := by
  constructor
  · intro i hi
    rw [vectorize_setRescale_getD r a p i hi, project_getD r p i hi]
  · exact vectorize_of_alpha_nil r p

/-- Witness for C2 at the `PointXYZ` default representation and a concrete
point and rescale array. -/
theorem vectorize_applies_rescale_witness :
    ((defaultRepresentationXYZ.setRescaleValues aEx).vectorize ptEx).getD 1 F.nan
      = F.mul ((defaultRepresentationXYZ.project ptEx).getD 1 F.nan) (aEx 1)
    ∧ defaultRepresentationXYZ.vectorize ptEx
      = defaultRepresentationXYZ.project ptEx :=
  ⟨(vectorize_applies_rescale defaultRepresentationXYZ aEx ptEx).1 1 (by decide),
   (vectorize_applies_rescale defaultRepresentationXYZ aEx ptEx).2 rfl⟩

/-- C3: `vectorize` with an empty (unset) rescale equals `project`, and
`vectorize` after installing an all-ones rescale array also equals
`project`. -/
theorem vectorize_idempotence {PointT : Type}
    (r : PointRepresentation PointT) (p : PointT) :
    (r.alpha_ = [] → r.vectorize p = r.project p)
    ∧ (r.setRescaleValues (fun _ => F.fin 1)).vectorize p = r.project p := by
  refine ⟨vectorize_of_alpha_nil r p, ?_⟩
  cases hn : r.nr_dimensions_ with
  | zero =>
    have h1 : (r.setRescaleValues (fun _ => F.fin 1)).vectorize p = [] := by
      unfold PointRepresentation.vectorize
      split <;> simp [show (r.setRescaleValues (fun _ => F.fin 1)).nr_dimensions_
          = r.nr_dimensions_ from rfl, hn]
    have h2 : r.project p = [] := by
      unfold PointRepresentation.project
      simp [hn]
    rw [h1, h2]
  | succ m =>
    unfold PointRepresentation.vectorize
    rw [setRescale_alpha,
      range_map_isEmpty_false (fun _ => F.fin 1) r.nr_dimensions_ (by omega)]
    simp only [Bool.false_eq_true, if_false]
    rw [show (r.setRescaleValues (fun _ => F.fin 1)).nr_dimensions_
        = r.nr_dimensions_ from rfl,
      show (r.setRescaleValues (fun _ => F.fin 1)).copyToFloatArray
        = r.copyToFloatArray from rfl]
    unfold PointRepresentation.project
    apply List.map_congr_left
    intro i hi
    rw [List.mem_range] at hi
    rw [getD_range_map _ _ _ _ hi, F.mul_one_right]

/-- Witness for C3 at the `PointXYZ` default representation and a concrete
point. -/
theorem vectorize_idempotence_witness :
    defaultRepresentationXYZ.vectorize ptEx = defaultRepresentationXYZ.project ptEx
    ∧ (defaultRepresentationXYZ.setRescaleValues (fun _ => F.fin 1)).vectorize ptEx
      = defaultRepresentationXYZ.project ptEx :=
  ⟨(vectorize_idempotence defaultRepresentationXYZ ptEx).1 rfl,
   (vectorize_idempotence defaultRepresentationXYZ ptEx).2⟩

/-- C4: `isValid p` returns `true` exactly when all `dims()` projected
components of `p` are finite floats. -/
theorem isValid_iff_all_finite {PointT : Type}
    (r : PointRepresentation PointT) (p : PointT) :
    r.isValid p = true
      ↔ ∀ i, i < r.nr_dimensions_
          → (r.copyToFloatArray p i).isFinite = true := by
  unfold PointRepresentation.isValid
  rw [List.all_eq_true]
  constructor
  · intro h i hi
    exact h i (List.mem_range.mpr hi)
  · intro h i hi
    exact h i (List.mem_range.mp hi)

/-- Witness for C4: a point with finite coordinates is valid, and a point
with a NaN coordinate is not. -/
theorem isValid_iff_all_finite_witness :
    defaultRepresentationXYZ.isValid ptEx = true
    ∧ ¬ defaultRepresentationXYZ.isValid ⟨F.fin 1, F.nan, F.fin 3⟩ = true :=
  ⟨(isValid_iff_all_finite defaultRepresentationXYZ ptEx).mpr (by decide),
   fun h => by
    have := (isValid_iff_all_finite defaultRepresentationXYZ
      ⟨F.fin 1, F.nan, F.fin 3⟩).mp h 1 (by decide)
    simp [defaultRepresentationXYZ, F.isFinite] at this⟩

theorem range_map_getD_eq_drop_take (p : List F) (s n : ℕ)
    (h : s + n ≤ p.length) :
    (List.range n).map (fun i => p.getD (s + i) F.nan)
      = (p.drop s).take n := by
  apply List.ext_getElem
  · simp
    omega
  · intro i h1 h2
    simp only [List.getElem_map, List.getElem_range, List.getElem_take,
      List.getElem_drop]
    rw [List.getD_eq_getElem p F.nan (by simp at h1; omega)]

/-- C5: the custom representation's dimension count is
`min (total_floats - start_dim) max_dim` (over C ints), and its projection is
the contiguous float subrange of the point layout starting at offset
`start_dim`. -/
theorem custom_representation_dims_project (total_floats : ℕ)
    (max_dim start_dim : ℤ) (p : List F) (hp : p.length = total_floats)
    (h0 : 0 ≤ start_dim) (hst : start_dim ≤ (total_floats : ℤ)) :
    customNrDimensions total_floats max_dim start_dim
        = min ((total_floats : ℤ) - start_dim) max_dim
    ∧ (customRepresentation total_floats max_dim start_dim).project p
        = (p.drop start_dim.toNat).take
            (customNrDimensions total_floats max_dim start_dim).toNat := by
  have hmin : customNrDimensions total_floats max_dim start_dim
      = min ((total_floats : ℤ) - start_dim) max_dim := by
    unfold customNrDimensions
    dsimp only
    split <;> omega
  refine ⟨hmin, ?_⟩
  unfold PointRepresentation.project
  rw [show (customRepresentation total_floats max_dim start_dim).nr_dimensions_
      = (customNrDimensions total_floats max_dim start_dim).toNat from rfl,
    show (customRepresentation total_floats max_dim start_dim).copyToFloatArray p
      = fun i => p.getD (start_dim.toNat + i) F.nan from rfl]
  apply range_map_getD_eq_drop_take
  rw [hp]
  omega

/-- Witness for C5: a 4-float layout with `max_dim = 3`, `start_dim = 1`. -/
theorem custom_representation_dims_project_witness :
    customNrDimensions 4 3 1 = min ((4 : ℤ) - 1) 3
    ∧ (customRepresentation 4 3 1).project
          [F.fin 1, F.fin 2, F.fin 3, F.fin 4]
        = (([F.fin 1, F.fin 2, F.fin 3, F.fin 4] : List F).drop (1 : ℤ).toNat).take
            (customNrDimensions 4 3 1).toNat :=
  custom_representation_dims_project 4 3 1
    [F.fin 1, F.fin 2, F.fin 3, F.fin 4] (by decide) (by decide) (by decide)

/-- C6: the default feature representation's dimension count is 33 for
`FPFHSignature33` and 308 for `VFHSignature308`, and in general it equals the
sum of the element counts of the declared fields. -/
theorem default_feature_dims :
    defaultFeatureNrDimensions fpfhFieldSizes = 33
    ∧ defaultFeatureNrDimensions vfhFieldSizes = 308
    ∧ ∀ field_sizes : List ℕ,
        defaultFeatureNrDimensions field_sizes = field_sizes.sum := by
  have key : ∀ (l : List ℕ) (n : ℕ), l.foldl (fun a s => a + s) n = n + l.sum := by
    intro l
    induction l with
    | nil => intro n; simp
    | cons h t ih =>
      intro n
      rw [List.foldl_cons, ih, List.sum_cons]
      omega
  refine ⟨rfl, rfl, ?_⟩
  intro l
  unfold defaultFeatureNrDimensions incrementFunctorFold
  rw [key]
  omega

/-- C10: the generic default point representation keeps only the first
`min (total_floats, 3)` floats of the raw layout, and the `PointXYZI`
specialization has 3 dimensions projecting exactly `x, y, z` — the intensity
field is excluded. -/
theorem default_representation_first_three :
    (∀ total_floats : ℕ, defaultNrDimensions total_floats = min total_floats 3)
    ∧ (∀ (total_floats : ℕ) (p : ℕ → F),
        (defaultRepresentationGeneric total_floats).project p
          = (List.range (min total_floats 3)).map p)
    ∧ defaultRepresentationXYZI.nr_dimensions_ = 3
    ∧ (∀ p : PointXYZI, defaultRepresentationXYZI.project p = [p.x, p.y, p.z]) := by
  have hdim : ∀ total_floats : ℕ,
      defaultNrDimensions total_floats = min total_floats 3 := by
    intro t
    unfold defaultNrDimensions
    dsimp only
    split <;> omega
  refine ⟨hdim, ?_, rfl, ?_⟩
  · intro t p
    unfold PointRepresentation.project
    rw [show (defaultRepresentationGeneric t).nr_dimensions_
        = defaultNrDimensions t from rfl, hdim t]
    rfl
  · intro p
    rfl

/-- Counterexample for C7: `setRescaleValues` does not fail fast on an
invalid configuration — an all-negative rescale array is accepted verbatim
into `alpha_` and subsequently applied by `vectorize`. -/
theorem setRescale_accepts_invalid_cex :
    (defaultRepresentationXYZ.setRescaleValues (fun _ => F.fin (-1))).alpha_
      = [F.fin (-1), F.fin (-1), F.fin (-1)]
    ∧ (defaultRepresentationXYZ.setRescaleValues
          (fun _ => F.fin (-1))).vectorize ptEx
      = [F.fin (-1), F.fin (-2), F.fin (-3)] := by
  refine ⟨rfl, ?_⟩
  show [F.mul (F.fin 1) (F.fin (-1)), F.mul (F.fin 2) (F.fin (-1)),
      F.mul (F.fin 3) (F.fin (-1))] = [F.fin (-1), F.fin (-2), F.fin (-3)]
  simp only [F.mul, List.cons.injEq, and_true]
  norm_num

/-- C7 amended: `setRescaleValues` performs no validation at all — it
unconditionally copies the first `dims()` entries of the given array into
`alpha_` (non-positive values included), and subsequent `vectorize` calls
apply them; a mis-sized array cannot be detected because exactly `dims()`
entries are read. -/
theorem setRescale_copies_unconditionally {PointT : Type}
    (r : PointRepresentation PointT) (a : ℕ → F) :
    (r.setRescaleValues a).alpha_ = (List.range r.nr_dimensions_).map a
    ∧ ∀ (p : PointT) (i : ℕ), i < r.nr_dimensions_ →
        ((r.setRescaleValues a).vectorize p).getD i F.nan
          = F.mul (r.copyToFloatArray p i) (a i) :=
  ⟨setRescale_alpha r a, fun p i h => vectorize_setRescale_getD r a p i h⟩

/-- Witness for the amended C7 at a concrete representation, point, and
negative rescale array. -/
theorem setRescale_copies_unconditionally_witness :
    (defaultRepresentationXYZ.setRescaleValues (fun _ => F.fin (-1))).alpha_
      = (List.range defaultRepresentationXYZ.nr_dimensions_).map
          (fun _ => F.fin (-1))
    ∧ ((defaultRepresentationXYZ.setRescaleValues
          (fun _ => F.fin (-1))).vectorize ptEx).getD 0 F.nan
        = F.mul (defaultRepresentationXYZ.copyToFloatArray ptEx 0)
            (F.fin (-1)) :=
  ⟨(setRescale_copies_unconditionally defaultRepresentationXYZ
      (fun _ => F.fin (-1))).1,
   (setRescale_copies_unconditionally defaultRepresentationXYZ
      (fun _ => F.fin (-1))).2 ptEx 0 (by decide)⟩

/-
  Spec-modelled transforms.  The registration algorithm implementations
  (ICP, ICP-NL, SAC-IA, PPF registration) are not among the provided
  sources — only their tests are — so the transform assembly is modelled
  from the spec (sections 4.D, 4.E, 4.H, 4.K), over exact rationals.
-/

/-- 4x4 homogeneous transform matrices over exact rationals. -/
abbrev M4 := Matrix (Fin 4) (Fin 4) ℚ

/-- 3x3 rotation blocks. -/
abbrev M3 := Matrix (Fin 3) (Fin 3) ℚ

/-- 3-component translation vectors. -/
abbrev V3 := Fin 3 → ℚ

/-- Modelled from the spec: assembly of a rigid transform estimate (§4.D)
into a 4x4 homogeneous matrix — rotation block `R`, translation column `t`,
last row `(0,0,0,1)` (spec data model: `M[3,:] = (0,0,0,1)`). -/
def homog (R : M3) (t : V3) : M4 :=
  Matrix.of fun i j =>
    if hi : (i : ℕ) < 3 then
      if hj : (j : ℕ) < 3 then R ⟨i, hi⟩ ⟨j, hj⟩ else t ⟨i, hi⟩
    else if (j : ℕ) = 3 then 1 else 0

/-- The transform-shape invariant: the last row equals `(0,0,0,1)`. -/
def lastRowAffine (M : M4) : Prop :=
  ∀ j : Fin 4, M 3 j = if j = 3 then 1 else 0

/-- Modelled from the spec (§4.E): the generic alignment loop shared by ICP
and ICP-NL — starting from the identity initial transform, each iteration
estimates a rigid increment `(R, t)` and updates `T_cur ← ΔT · T_cur`. -/
def alignmentLoop (deltas : List (M3 × V3)) : M4 :=
  deltas.foldl (fun T d => homog d.1 d.2 * T) 1

/-- Modelled from the spec (§4.H): SAC-IA returns its best-scoring candidate,
each candidate being a §4.D SVD rigid fit assembled as a homogeneous
matrix. -/
def sacIaTransform (bestR : M3) (bestT : V3) : M4 := homog bestR bestT

/-- Modelled from the spec (§4.K): inverse of the rigid transform `(R, t)`,
namely `(Rᵀ, -Rᵀ t)`, assembled as a homogeneous matrix. -/
def rigidInverse (R : M3) (t : V3) : M4 :=
  homog R.transpose (fun i => -(R.transpose.mulVec t) i)

/-- Modelled from the spec (§4.K): the rotation `R_x(α)` about the `+x` axis
as a homogeneous matrix, parameterized by `c = cos α` and `s = sin α`. -/
def rotXHomog (c s : ℚ) : M4 :=
  homog (Matrix.of ![![1, 0, 0], ![0, c, -s], ![0, s, c]]) (fun _ => 0)

/-- Parameters of one PPF candidate pose: the scene reference alignment
`T_sg = (R, t)`, the in-plane angle `α` (by its cosine and sine), and the
model reference alignment `T_mg`. -/
structure PPFCandidateParams where
  sceneRot : M3
  sceneTrans : V3
  cosAlpha : ℚ
  sinAlpha : ℚ
  modelRot : M3
  modelTrans : V3

/-- Modelled from the spec (§4.K step 2): candidate pose
`T_cand = T_sg⁻¹ · R_x(α) · T_mg`. -/
def ppfCandidate (c : PPFCandidateParams) : M4 :=
  rigidInverse c.sceneRot c.sceneTrans * rotXHomog c.cosAlpha c.sinAlpha
    * homog c.modelRot c.modelTrans

/-- Modelled from the spec (§4.K): result of pose clustering — no cluster
formed (identity with failure flag), a member of the heaviest cluster, or the
mean pose of the heaviest cluster's members. -/
inductive PPFClusterOutcome where
  | noCluster
  | member (c : PPFCandidateParams)
  | mean (c : PPFCandidateParams) (rest : List PPFCandidateParams)

/-- Mean of `Ts.length + 1` candidate poses. -/
def meanPose (T : M4) (Ts : List M4) : M4 :=
  ((Ts.length : ℚ) + 1)⁻¹ • Ts.foldl (fun A B => A + B) T

/-- Modelled from the spec (§4.K step 3 and clustering): the transform
returned by PPF registration for each possible clustering outcome. -/
def ppfRegistrationTransform : PPFClusterOutcome → M4
  | PPFClusterOutcome.noCluster => 1
  | PPFClusterOutcome.member c => ppfCandidate c
  | PPFClusterOutcome.mean c rest =>
      meanPose (ppfCandidate c) (rest.map ppfCandidate)

theorem lastRowAffine_one : lastRowAffine (1 : M4) := by
  intro j
  fin_cases j <;> simp [Matrix.one_apply]

theorem lastRowAffine_homog (R : M3) (t : V3) : lastRowAffine (homog R t) := by
  intro j
  unfold homog
  rw [Matrix.of_apply, dif_neg (show ¬(((3 : Fin 4) : ℕ) < 3) by decide)]
  have hj : ((j : ℕ) = 3) ↔ (j = (3 : Fin 4)) :=
    ⟨fun h => Fin.ext h, fun h => by rw [h]; rfl⟩
  by_cases h : j = (3 : Fin 4)
  · rw [if_pos (hj.mpr h), if_pos h]
  · rw [if_neg (fun hc => h (hj.mp hc)), if_neg h]

theorem lastRowAffine_mul {A B : M4} (hA : lastRowAffine A)
    (hB : lastRowAffine B) : lastRowAffine (A * B) := by
  intro j
  rw [Matrix.mul_apply, Fin.sum_univ_four, hA 0, hA 1, hA 2, hA 3, hB j,
    if_neg (show ¬(0 : Fin 4) = 3 by decide),
    if_neg (show ¬(1 : Fin 4) = 3 by decide),
    if_neg (show ¬(2 : Fin 4) = 3 by decide),
    if_pos (show (3 : Fin 4) = 3 from rfl)]
  ring

theorem lastRowAffine_ppfCandidate (c : PPFCandidateParams) :
    lastRowAffine (ppfCandidate c) := by
  unfold ppfCandidate rigidInverse rotXHomog
  exact lastRowAffine_mul
    (lastRowAffine_mul (lastRowAffine_homog _ _) (lastRowAffine_homog _ _))
    (lastRowAffine_homog _ _)

theorem lastRowAffine_meanPose (T : M4) (Ts : List M4)
    (hT : lastRowAffine T) (hTs : ∀ A ∈ Ts, lastRowAffine A) :
    lastRowAffine (meanPose T Ts) := by
  have key : ∀ (l : List M4) (T0 : M4) (c : ℚ),
      (∀ j, T0 3 j = c * (if j = 3 then 1 else 0)) →
      (∀ A ∈ l, lastRowAffine A) →
      ∀ j, (l.foldl (fun A B => A + B) T0) 3 j
        = (c + l.length) * (if j = 3 then 1 else 0) := by
    intro l
    induction l with
    | nil =>
      intro T0 c h _ j
      simpa using h j
    | cons B t ih =>
      intro T0 c h hl j
      rw [List.foldl_cons]
      have step : ∀ j2, (T0 + B) 3 j2 = (c + 1) * (if j2 = 3 then 1 else 0) := by
        intro j2
        rw [Matrix.add_apply, h j2, hl B (by simp) j2]
        ring
      have := ih (T0 + B) (c + 1) step (fun A hA => hl A (by simp [hA])) j
      rw [this, List.length_cons]
      push_cast
      ring
  intro j
  unfold meanPose
  rw [Matrix.smul_apply,
    key Ts T 1 (fun j2 => by rw [hT j2]; ring) hTs j,
    smul_eq_mul, show (1 + (Ts.length : ℚ)) = ((Ts.length : ℚ) + 1) by ring,
    ← mul_assoc, inv_mul_cancel₀ (by positivity), one_mul]

/-- C1: for each registration algorithm — the §4.E alignment loop shared by
ICP and ICP-NL, the SAC-IA best candidate, and every PPF registration
clustering outcome — the last row of the returned 4x4 transform equals
`(0,0,0,1)` exactly. -/
theorem registration_transform_last_row (deltas : List (M3 × V3))
    (bestR : M3) (bestT : V3) (outcome : PPFClusterOutcome) :
    lastRowAffine (alignmentLoop deltas)
    ∧ lastRowAffine (sacIaTransform bestR bestT)
    ∧ lastRowAffine (ppfRegistrationTransform outcome) := by
  refine ⟨?_, lastRowAffine_homog bestR bestT, ?_⟩
  · unfold alignmentLoop
    have general : ∀ (l : List (M3 × V3)) (T : M4), lastRowAffine T →
        lastRowAffine (l.foldl (fun T d => homog d.1 d.2 * T) T) := by
      intro l
      induction l with
      | nil => intro T hT; exact hT
      | cons d t ih =>
        intro T hT
        exact ih _ (lastRowAffine_mul (lastRowAffine_homog _ _) hT)
    exact general deltas 1 lastRowAffine_one
  · cases outcome with
    | noCluster => exact lastRowAffine_one
    | member c => exact lastRowAffine_ppfCandidate c
    | mean c rest =>
      apply lastRowAffine_meanPose _ _ (lastRowAffine_ppfCandidate c)
      intro A hA
      rw [List.mem_map] at hA
      obtain ⟨p0, _, hp0⟩ := hA
      rw [← hp0]
      exact lastRowAffine_ppfCandidate p0

/-
  Spec-modelled pyramid feature histogram (§4.I).  The pyramid
  implementation (`pyramid_feature_matching`) is not among the provided
  sources — only its test is — so construction and comparison are modelled
  from the spec, over exact rationals.
-/

/-- A per-dimension `(min, max)` range. -/
structure DimRange where
  lo : ℚ
  hi : ℚ

/-- Width of a range. -/
def rangeSpan (r : DimRange) : ℚ := r.hi - r.lo

/-- Modelled from the spec (§4.I): a feature coordinate is affinely rescaled
so the input range maps onto the target range translated to start at 0, i.e.
onto `[0, target_span]`. -/
def scaleCoord (inR tR : DimRange) (x : ℚ) : ℚ :=
  (x - inR.lo) / (inR.hi - inR.lo) * rangeSpan tR

/-- Largest per-dimension span of the target range. -/
def maxSpan (tR : List DimRange) : ℚ := (tR.map rangeSpan).foldr max 0

/-- Ceiling base-2 logarithm on naturals: the least `k` with `n ≤ 2 ^ k`. -/
def ceilLog2N (n : ℕ) : ℕ :=
  ((List.range (n + 1)).filter (fun k => n ≤ 2 ^ k)).headD 0

/-- Modelled from the spec (§4.I): the number of pyramid levels,
`L = ⌈log₂ (max target_span)⌉ + 1`. -/
def pyramidLevels (tR : List DimRange) : ℕ := ceilLog2N ⌈maxSpan tR⌉₊ + 1

/-- Modelled from the spec (§4.I): the cell a feature falls into at level
`lvl` — per dimension, the rescaled coordinate divided by the cell edge
length `2 ^ lvl`, floored. -/
def featureCell (inR tR : List DimRange) (lvl : ℕ) (f : List ℚ) : List ℤ :=
  List.zipWith (fun p x => ⌊scaleCoord p.1 p.2 x / 2 ^ lvl⌋) (inR.zip tR) f

/-- Modelled from the spec (§4.I): the histogram-intersection kernel at one
level, `I_lvl = Σ_cells min (P_lvl cell) (Q_lvl cell)`. -/
def levelIntersection (inR tR : List DimRange) (lvl : ℕ)
    (P Q : List (List ℚ)) : ℕ :=
  ((P.map (featureCell inR tR lvl)).dedup.map
    (fun c => min ((P.map (featureCell inR tR lvl)).count c)
      ((Q.map (featureCell inR tR lvl)).count c))).sum

/-- Modelled from the spec (§4.I): new matches at a level,
`N_lvl = I_lvl - I_(lvl-1)` with `N_0 = I_0`. -/
def newMatches (inR tR : List DimRange) (lvl : ℕ) (P Q : List (List ℚ)) : ℚ :=
  if lvl = 0 then (levelIntersection inR tR 0 P Q : ℚ)
  else (levelIntersection inR tR lvl P Q : ℚ)
    - (levelIntersection inR tR (lvl - 1) P Q : ℚ)

/-- Modelled from the spec (§4.I): pyramid similarity
`s = (Σ_lvl N_lvl / 2 ^ lvl) / min (card P) (card Q)`. -/
def pyramidSimilarity (inR tR : List DimRange) (P Q : List (List ℚ)) : ℚ :=
  (((List.range (pyramidLevels tR)).map
      (fun lvl => newMatches inR tR lvl P Q / 2 ^ lvl)).sum)
    / (min P.length Q.length : ℚ)

/-- Shared input range for the concrete pyramid scenarios. -/
def inRex : List DimRange := [⟨0, 1⟩]

/-- One-dimensional target range `[0, s]` of span `s`. -/
def tRex (s : ℚ) : List DimRange := [⟨0, s⟩]

/-- First concrete feature cloud of the pyramid scenarios. -/
def Pex : List (List ℚ) := [[1/10], [3/5]]

/-- Second concrete feature cloud of the pyramid scenarios. -/
def Qex : List (List ℚ) := [[7/20], [17/20]]

theorem pyramidLevels_span2 : pyramidLevels (tRex 2) = 2 := by
  have hceil : ⌈maxSpan (tRex 2)⌉₊ = 2 := by
    norm_num [maxSpan, rangeSpan, tRex, max_def]
  unfold pyramidLevels
  rw [hceil]
  decide

theorem pyramidLevels_span4 : pyramidLevels (tRex 4) = 3 := by
  have hceil : ⌈maxSpan (tRex 4)⌉₊ = 4 := by
    norm_num [maxSpan, rangeSpan, tRex, max_def]
  unfold pyramidLevels
  rw [hceil]
  decide

theorem pyramidLevels_span8 : pyramidLevels (tRex 8) = 4 := by
  have hceil : ⌈maxSpan (tRex 8)⌉₊ = 8 := by
    norm_num [maxSpan, rangeSpan, tRex, max_def]
  unfold pyramidLevels
  rw [hceil]
  decide

theorem intersection_span2_lvl0 :
    levelIntersection inRex (tRex 2) 0 Pex Qex = 2 := by
  have hP : Pex.map (featureCell inRex (tRex 2) 0) = [[0], [1]] := by
    norm_num [featureCell, scaleCoord, rangeSpan, Pex, inRex, tRex]
  have hQ : Qex.map (featureCell inRex (tRex 2) 0) = [[0], [1]] := by
    norm_num [featureCell, scaleCoord, rangeSpan, Qex, inRex, tRex]
  unfold levelIntersection
  rw [hP, hQ]
  decide

theorem intersection_span2_lvl1 :
    levelIntersection inRex (tRex 2) 1 Pex Qex = 2 := by
  have hP : Pex.map (featureCell inRex (tRex 2) 1) = [[0], [0]] := by
    norm_num [featureCell, scaleCoord, rangeSpan, Pex, inRex, tRex]
  have hQ : Qex.map (featureCell inRex (tRex 2) 1) = [[0], [0]] := by
    norm_num [featureCell, scaleCoord, rangeSpan, Qex, inRex, tRex]
  unfold levelIntersection
  rw [hP, hQ]
  decide

theorem intersection_span4_lvl0 :
    levelIntersection inRex (tRex 4) 0 Pex Qex = 0 := by
  have hP : Pex.map (featureCell inRex (tRex 4) 0) = [[0], [2]] := by
    norm_num [featureCell, scaleCoord, rangeSpan, Pex, inRex, tRex]
  have hQ : Qex.map (featureCell inRex (tRex 4) 0) = [[1], [3]] := by
    norm_num [featureCell, scaleCoord, rangeSpan, Qex, inRex, tRex]
  unfold levelIntersection
  rw [hP, hQ]
  decide

theorem intersection_span4_lvl1 :
    levelIntersection inRex (tRex 4) 1 Pex Qex = 2 := by
  have hP : Pex.map (featureCell inRex (tRex 4) 1) = [[0], [1]] := by
    norm_num [featureCell, scaleCoord, rangeSpan, Pex, inRex, tRex]
  have hQ : Qex.map (featureCell inRex (tRex 4) 1) = [[0], [1]] := by
    norm_num [featureCell, scaleCoord, rangeSpan, Qex, inRex, tRex]
  unfold levelIntersection
  rw [hP, hQ]
  decide

theorem intersection_span4_lvl2 :
    levelIntersection inRex (tRex 4) 2 Pex Qex = 2 := by
  have hP : Pex.map (featureCell inRex (tRex 4) 2) = [[0], [0]] := by
    norm_num [featureCell, scaleCoord, rangeSpan, Pex, inRex, tRex]
  have hQ : Qex.map (featureCell inRex (tRex 4) 2) = [[0], [0]] := by
    norm_num [featureCell, scaleCoord, rangeSpan, Qex, inRex, tRex]
  unfold levelIntersection
  rw [hP, hQ]
  decide

theorem intersection_span8_lvl0 :
    levelIntersection inRex (tRex 8) 0 Pex Qex = 0 := by
  have hP : Pex.map (featureCell inRex (tRex 8) 0) = [[0], [4]] := by
    norm_num [featureCell, scaleCoord, rangeSpan, Pex, inRex, tRex]
  have hQ : Qex.map (featureCell inRex (tRex 8) 0) = [[2], [6]] := by
    norm_num [featureCell, scaleCoord, rangeSpan, Qex, inRex, tRex]
  unfold levelIntersection
  rw [hP, hQ]
  decide

theorem intersection_span8_lvl1 :
    levelIntersection inRex (tRex 8) 1 Pex Qex = 0 := by
  have hP : Pex.map (featureCell inRex (tRex 8) 1) = [[0], [2]] := by
    norm_num [featureCell, scaleCoord, rangeSpan, Pex, inRex, tRex]
  have hQ : Qex.map (featureCell inRex (tRex 8) 1) = [[1], [3]] := by
    norm_num [featureCell, scaleCoord, rangeSpan, Qex, inRex, tRex]
  unfold levelIntersection
  rw [hP, hQ]
  decide

theorem intersection_span8_lvl2 :
    levelIntersection inRex (tRex 8) 2 Pex Qex = 2 := by
  have hP : Pex.map (featureCell inRex (tRex 8) 2) = [[0], [1]] := by
    norm_num [featureCell, scaleCoord, rangeSpan, Pex, inRex, tRex]
  have hQ : Qex.map (featureCell inRex (tRex 8) 2) = [[0], [1]] := by
    norm_num [featureCell, scaleCoord, rangeSpan, Qex, inRex, tRex]
  unfold levelIntersection
  rw [hP, hQ]
  decide

theorem intersection_span8_lvl3 :
    levelIntersection inRex (tRex 8) 3 Pex Qex = 2 := by
  have hP : Pex.map (featureCell inRex (tRex 8) 3) = [[0], [0]] := by
    norm_num [featureCell, scaleCoord, rangeSpan, Pex, inRex, tRex]
  have hQ : Qex.map (featureCell inRex (tRex 8) 3) = [[0], [0]] := by
    norm_num [featureCell, scaleCoord, rangeSpan, Qex, inRex, tRex]
  unfold levelIntersection
  rw [hP, hQ]
  decide

theorem pyramidSimilarity_span2 :
    pyramidSimilarity inRex (tRex 2) Pex Qex = 1 := by
  unfold pyramidSimilarity
  rw [pyramidLevels_span2, show Pex.length = 2 from rfl,
    show Qex.length = 2 from rfl]
  norm_num [List.range_succ, newMatches, intersection_span2_lvl0,
    intersection_span2_lvl1]

theorem pyramidSimilarity_span4 :
    pyramidSimilarity inRex (tRex 4) Pex Qex = 1 / 2 := by
  unfold pyramidSimilarity
  rw [pyramidLevels_span4, show Pex.length = 2 from rfl,
    show Qex.length = 2 from rfl]
  norm_num [List.range_succ, newMatches, intersection_span4_lvl0,
    intersection_span4_lvl1, intersection_span4_lvl2]

theorem pyramidSimilarity_span8 :
    pyramidSimilarity inRex (tRex 8) Pex Qex = 1 / 4 := by
  unfold pyramidSimilarity
  rw [pyramidLevels_span8, show Pex.length = 2 from rfl,
    show Qex.length = 2 from rfl]
  norm_num [List.range_succ, newMatches, intersection_span8_lvl0,
    intersection_span8_lvl1, intersection_span8_lvl2,
    intersection_span8_lvl3]

/-- Counterexample for C8: for a fixed pair of feature clouds, widening the
target range from span 2 to span 4 strictly DECREASES the pyramid
similarity (from 1 to 1/2), refuting the claim that similarity is
non-decreasing as the target range widens. -/
theorem pyramid_widen_similarity_cex :
    pyramidSimilarity inRex (tRex 4) Pex Qex
      < pyramidSimilarity inRex (tRex 2) Pex Qex := by
  rw [pyramidSimilarity_span2, pyramidSimilarity_span4]
  norm_num

/-- C8 amended: the direction is reversed — as the target range NARROWS
(cells become coarser relative to the rescaled data), the pyramid similarity
is non-decreasing, as the seed scenarios exhibit on three nested
configurations; widening the target range can strictly decrease it. -/
theorem pyramid_narrow_similarity_nondecreasing :
    pyramidSimilarity inRex (tRex 8) Pex Qex
        ≤ pyramidSimilarity inRex (tRex 4) Pex Qex
    ∧ pyramidSimilarity inRex (tRex 4) Pex Qex
        ≤ pyramidSimilarity inRex (tRex 2) Pex Qex := by
  rw [pyramidSimilarity_span2, pyramidSimilarity_span4,
    pyramidSimilarity_span8]
  norm_num

end PCL
